import Mathlib

/-!
Shallow embedding of the Biofilm2 visualisation pipeline
(src/visualisation/video_visualization.py, src/visualisation/visualisation_app.py).

Floating-point values of the Python code are modelled by exact rationals (ℚ)
for the data-cleaning / viewport stages and by real numbers (ℝ) for the
trigonometric geometry stage.
-/

namespace Biofilm

/-- One raw CSV cell as pandas sees it after `read_csv`: either missing (NaN),
a value that coerces to a number, or a string that fails numeric coercion
(`pd.to_numeric(..., errors=coerce)` turns it into NaN). -/
inductive RawField where
  | nan : RawField
  | num (q : ℚ) : RawField
  | str (s : String) : RawField
deriving DecidableEq, Repr

/-- `pd.isna` on a field. -/
def RawField.isNan : RawField → Bool
  | .nan => true
  | _ => false

/-- Models `df.astype(str).apply(lambda x: x.str.contains(hash))`: only a
non-numeric string can contain the separator character; the string form of a
number never does. -/
def RawField.containsHash : RawField → Bool
  | .str s => s.data.contains '#'
  | _ => false

/-- `pd.to_numeric(field, errors=coerce)`: numbers pass through, anything
else becomes NaN (modelled as `none`). -/
def RawField.toNumeric : RawField → Option ℚ
  | .num q => some q
  | _ => none

/-- One row of the input CSV, with the eight required columns
(`tick_num, agent_type, pos_X, pos_Y, diameter, length, orientation_X, orientation_Y`). -/
structure RawRow where
  tick_num : RawField
  agent_type : RawField
  pos_X : RawField
  pos_Y : RawField
  diameter : RawField
  length : RawField
  orientation_X : RawField
  orientation_Y : RawField
deriving DecidableEq, Repr

/-- All eight column values of a row, for the row-level `dropna()` and the
`#`-separator scan, which look at every column. -/
def RawRow.fields (r : RawRow) : List RawField :=
  [r.tick_num, r.agent_type, r.pos_X, r.pos_Y,
   r.diameter, r.length, r.orientation_X, r.orientation_Y]

/-- `df = df.dropna()`: drop every row that has a NaN in any column. -/
def dropnaPass (rows : List RawRow) : List RawRow :=
  rows.filter fun r => !(r.fields.any (·.isNan))

/-- `df = df[~df.astype(str).apply(...str.contains(hash)...).any(axis=1)]`:
drop every row in which the string form of some column contains the separator. -/
def hashPass (rows : List RawRow) : List RawRow :=
  rows.filter fun r => !(r.fields.any (·.containsHash))

/-- `df[tick_num] = pd.to_numeric(df[tick_num], errors=coerce)` followed by
`df = df.dropna(subset=[tick_num])`: drop rows whose tick fails coercion. -/
def tickPass (rows : List RawRow) : List RawRow :=
  rows.filter fun r => r.tick_num.toNumeric.isSome

/-- Whether all six required numeric columns other than `tick_num` coerce. -/
def RawRow.numericOk (r : RawRow) : Bool :=
  [r.pos_X, r.pos_Y, r.diameter, r.length,
   r.orientation_X, r.orientation_Y].all (·.toNumeric.isSome)

/-- The per-column `pd.to_numeric(..., errors=coerce)` loop over
`numeric_columns` followed by `df = df.dropna(subset=numeric_columns)`
(present only in video_visualization.py). -/
def numericPass (rows : List RawRow) : List RawRow :=
  rows.filter (·.numericOk)

/-- The rows surviving the cleaning of the video-mode loader
(video_visualization.py, module level). -/
def surviveVideo (rows : List RawRow) : List RawRow :=
  numericPass (tickPass (hashPass (dropnaPass rows)))

/-- The rows surviving the cleaning of the final-state loader
(visualisation_app.py, `TkinterBiofilmViewer.load_data`): identical to the
video loader except that it never coerces or filters the six numeric columns. -/
def surviveApp (rows : List RawRow) : List RawRow :=
  tickPass (hashPass (dropnaPass rows))

/-- `astype(int)` on a float value: truncation toward zero. -/
def truncQ (q : ℚ) : Int :=
  q.num.tdiv q.den

/-- A cleaned, typed record as used by the video pipeline after ingestion:
tick coerced to integer, the six numeric columns coerced to numbers,
`agent_type` kept as read. -/
structure CleanRow where
  tick : Int
  agent_type : RawField
  pos_X : ℚ
  pos_Y : ℚ
  diameter : ℚ
  length : ℚ
  orientation_X : ℚ
  orientation_Y : ℚ
deriving DecidableEq, Repr

/-- Typing one surviving raw row (all coercions succeed on survivors of the
video cleaning; a row with any failing coercion yields `none`). -/
def RawRow.toCleanRow (r : RawRow) : Option CleanRow := do
  let t ← r.tick_num.toNumeric
  let px ← r.pos_X.toNumeric
  let py ← r.pos_Y.toNumeric
  let d ← r.diameter.toNumeric
  let l ← r.length.toNumeric
  let ox ← r.orientation_X.toNumeric
  let oy ← r.orientation_Y.toNumeric
  pure ⟨truncQ t, r.agent_type, px, py, d, l, ox, oy⟩

/-- The full ingestion of the video loader: clean, then type each surviving row. -/
def cleanVideo (rows : List RawRow) : List CleanRow :=
  (surviveVideo rows).filterMap RawRow.toCleanRow

/-- Insert a tick into an ascending duplicate-free list, keeping it ascending
and duplicate-free (dropping the value when already present). -/
def insertTick (x : Int) : List Int → List Int
  | [] => [x]
  | a :: as =>
    if x < a then x :: a :: as
    else if x = a then a :: as
    else a :: insertTick x as

/-- `time_steps = sorted(df[tick_num].unique())`: the distinct tick values in
ascending order (pandas `unique` keeps first-occurrence order, which the
subsequent `sorted` makes immaterial, so the result is the ascending
enumeration of the set of tick values). -/
def time_steps (rows : List CleanRow) : List Int :=
  rows.foldr (fun r acc => insertTick r.tick acc) []

/-- Minimum of a pandas numeric series (`.min()`); the empty case never
arises in the code because it is guarded by an emptiness check. -/
def listMin : List ℚ → ℚ
  | [] => 0
  | a :: as => as.foldl min a

/-- Maximum of a pandas numeric series (`.max()`). -/
def listMax : List ℚ → ℚ
  | [] => 0
  | a :: as => as.foldl max a

/-- The records of the reference (last) tick:
`last_tick_data = df[df[tick_num] == last_tick]`. -/
def lastTickData (rows : List CleanRow) (last : Int) : List CleanRow :=
  rows.filter fun r => r.tick = last

/-- The padding of the viewport:
`padding = max(max_diameter, max_length) * 2` over the reference tick. -/
def viewPadding (ltd : List CleanRow) : ℚ :=
  max (listMax (ltd.map (·.diameter))) (listMax (ltd.map (·.length))) * 2

/-- A viewport rectangle `(plot_min_x, plot_max_x, plot_min_y, plot_max_y)`. -/
structure Bounds where
  min_x : ℚ
  max_x : ℚ
  min_y : ℚ
  max_y : ℚ
deriving DecidableEq, Repr

/-- The viewport computation shared by both scripts (module level in
video_visualization.py; `setup_plot_bounds` in visualisation_app.py):
bounding box of the positions at the last tick expanded by the padding, falling
back to (0,100)×(0,100) when there is no tick or no data in the last tick. -/
def plotBounds (rows : List CleanRow) : Bounds :=
  match (time_steps rows).getLast? with
  | none => ⟨0, 100, 0, 100⟩
  | some last =>
    let ltd := lastTickData rows last
    if ltd.isEmpty then ⟨0, 100, 0, 100⟩
    else
      let p := viewPadding ltd
      ⟨listMin (ltd.map (·.pos_X)) - p, listMax (ltd.map (·.pos_X)) + p,
       listMin (ltd.map (·.pos_Y)) - p, listMax (ltd.map (·.pos_Y)) + p⟩

/-- Result of running the module-level prologue of video_visualization.py. -/
inductive ScriptResult where
  | ok (b : Bounds) : ScriptResult
  | indexError : ScriptResult
deriving DecidableEq, Repr

/-- The module-level flow of video_visualization.py after cleaning: the line
`print(f"Time step range: {time_steps[0]} to {time_steps[-1]}")` indexes
`time_steps[0]` and `time_steps[-1]`, which raises IndexError when the tick
sequence is empty; only afterwards does the script reach the bounds
computation with its default fallback. -/
def videoScriptMain (rows : List CleanRow) : ScriptResult :=
  let ts := time_steps rows
  match ts.head?, ts.getLast? with
  | some _, some _ => .ok (plotBounds rows)
  | _, _ => .indexError

/-- The tick rendered in animation frame `frame`:
`tick = time_steps[frame]` in `animate` (the index is always in range when
called by FuncAnimation with `frames=len(time_steps)`). -/
def animateTick (rows : List CleanRow) (frame : Nat) : Int :=
  (time_steps rows).getD frame 0

/-- The sequence of ticks rendered by
`FuncAnimation(fig, animate, frames=len(time_steps), ...)`: `animate` is
called once per frame index `0, 1, ..., len(time_steps) - 1` in order. -/
def videoFrameTicks (rows : List CleanRow) : List Int :=
  (List.range (time_steps rows).length).map (animateTick rows)

noncomputable section Geometry

open Real

/-- `np.arctan2(y, x)`: the argument of the point (x, y), in radians. -/
def atan2 (y x : ℝ) : ℝ :=
  Complex.arg (x + y * Complex.I)

/-- `np.degrees`. -/
def degrees (θ : ℝ) : ℝ :=
  θ * 180 / Real.pi

/-- A matplotlib `Affine2D` transform: the matrix
[[m11, m12, tx], [m21, m22, ty], [0, 0, 1]] acting on column vectors. -/
structure Affine2 where
  m11 : ℝ
  m12 : ℝ
  m21 : ℝ
  m22 : ℝ
  tx : ℝ
  ty : ℝ

/-- `Affine2D()`: the identity transform. -/
def Affine2.id0 : Affine2 := ⟨1, 0, 0, 1, 0, 0⟩

/-- Matrix product `B @ A` (apply `A` first, then `B`); each matplotlib
mutator method left-multiplies its matrix onto the current one. -/
def Affine2.comp (B A : Affine2) : Affine2 :=
  ⟨B.m11 * A.m11 + B.m12 * A.m21, B.m11 * A.m12 + B.m12 * A.m22,
   B.m21 * A.m11 + B.m22 * A.m21, B.m21 * A.m12 + B.m22 * A.m22,
   B.m11 * A.tx + B.m12 * A.ty + B.tx,
   B.m21 * A.tx + B.m22 * A.ty + B.ty⟩

/-- `.rotate(theta)`: left-multiply by the rotation matrix for `theta` radians. -/
def Affine2.rotate (A : Affine2) (θ : ℝ) : Affine2 :=
  Affine2.comp ⟨Real.cos θ, -Real.sin θ, Real.sin θ, Real.cos θ, 0, 0⟩ A

/-- `.rotate_deg(d)`: rotation given in degrees. -/
def Affine2.rotateDeg (A : Affine2) (d : ℝ) : Affine2 :=
  A.rotate (d * Real.pi / 180)

/-- `.translate(tx, ty)`: left-multiply by a translation. -/
def Affine2.translate (A : Affine2) (v : ℝ × ℝ) : Affine2 :=
  Affine2.comp ⟨1, 0, 0, 1, v.1, v.2⟩ A

/-- Apply the affine transform to a point. -/
def Affine2.apply (A : Affine2) (p : ℝ × ℝ) : ℝ × ℝ :=
  (A.m11 * p.1 + A.m12 * p.2 + A.tx, A.m21 * p.1 + A.m22 * p.2 + A.ty)

/-- A Cell record as consumed by the geometry code of `animate` /
`plot_final_state` (floats modelled as reals). -/
structure CellRec where
  pos_X : ℝ
  pos_Y : ℝ
  diameter : ℝ
  length : ℝ
  orientation_X : ℝ
  orientation_Y : ℝ

/-- `angle = np.arctan2(cell[orientation_Y], cell[orientation_X])`. -/
def CellRec.angle (c : CellRec) : ℝ :=
  atan2 c.orientation_Y c.orientation_X

/-- `rect_len = l - w`. -/
def CellRec.rectLen (c : CellRec) : ℝ :=
  c.length - c.diameter

/-- `r = w / 2`. -/
def CellRec.capR (c : CellRec) : ℝ :=
  c.diameter / 2

/-- The capsule body half-length `rect_len / 2` (the rectangle extends from
`-rect_len/2` to `rect_len/2` along the local X axis). -/
def CellRec.bodyHalfLen (c : CellRec) : ℝ :=
  c.rectLen / 2

/-- An axis-aligned rectangle patch anchored at its lower-left corner, as
`FancyBboxPatch((x0, y0), w, h)` with `boxstyle="round,pad=0"`. -/
structure RectPatch where
  x0 : ℝ
  y0 : ℝ
  w : ℝ
  h : ℝ

/-- A circle patch `Circle((cx, cy), r)`. -/
structure CirclePatch where
  cx : ℝ
  cy : ℝ
  r : ℝ

/-- `FancyBboxPatch((-rect_len/2, -rect_w/2), rect_len, rect_w, ...)`:
the capsule body in the local frame. -/
def CellRec.rect (c : CellRec) : RectPatch :=
  ⟨-c.rectLen / 2, -c.diameter / 2, c.rectLen, c.diameter⟩

/-- `left_cap = Circle((-rect_len/2, 0), r, ...)` in the local frame. -/
def CellRec.leftCap (c : CellRec) : CirclePatch :=
  ⟨-c.rectLen / 2, 0, c.capR⟩

/-- `right_cap = Circle((rect_len/2, 0), r, ...)` in the local frame. -/
def CellRec.rightCap (c : CellRec) : CirclePatch :=
  ⟨c.rectLen / 2, 0, c.capR⟩

/-- `t = Affine2D().rotate_deg(angle_deg).translate(cell[pos_X], cell[pos_Y])`
with `angle_deg = np.degrees(angle)`. -/
def CellRec.transform (c : CellRec) : Affine2 :=
  (Affine2.id0.rotateDeg (degrees c.angle)).translate (c.pos_X, c.pos_Y)

/-- The world-coordinate position of the capsule center (the local origin
under the transform of the cell). -/
def CellRec.worldCenter (c : CellRec) : ℝ × ℝ :=
  c.transform.apply (0, 0)

/-- The world-coordinate center of the left end cap. -/
def CellRec.worldLeftCap (c : CellRec) : ℝ × ℝ :=
  c.transform.apply (c.leftCap.cx, c.leftCap.cy)

/-- The world-coordinate center of the right end cap. -/
def CellRec.worldRightCap (c : CellRec) : ℝ × ℝ :=
  c.transform.apply (c.rightCap.cx, c.rightCap.cy)

/-- The tick-0 cell of the two-tick scenario: position (0,0), diameter 1,
length 3, orientation (1,0). -/
def tick0Cell : CellRec := ⟨0, 0, 1, 3, 1, 0⟩

/-- The tick-1 cell of the two-tick scenario: position (5,0), diameter 1,
length 3, orientation (0,1). -/
def tick1Cell : CellRec := ⟨5, 0, 1, 3, 0, 1⟩

/-- A degenerate cell (length = diameter = 2) at position (1,2). -/
def c8cell : CellRec := ⟨1, 2, 2, 2, 0, 1⟩

end Geometry

/-- Which sink finally accepted the animation. -/
inductive SaveOutcome where
  | mp4 : SaveOutcome
  | gif : SaveOutcome
  | window : SaveOutcome
deriving DecidableEq, Repr

/-- The save block of video_visualization.py: try the ffmpeg writer, on
exception log the error and try the pillow GIF writer, on a second exception
log again and fall back to `plt.show()`. The availability of the two external
encoders is abstracted as two booleans; the second component collects the
printed log lines of the path taken. -/
def saveAnimationFlow (ffmpegOk pillowOk : Bool) : SaveOutcome × List String :=
  if ffmpegOk then
    (.mp4, ["Video saved to: output/biofilm_simulation_video.mp4"])
  else
    let l1 := ["Error saving video", "Trying alternative method..."]
    if pillowOk then
      (.gif, l1 ++ ["Animation saved as GIF: output/biofilm_simulation_animation.gif"])
    else
      (.window, l1 ++ ["Error saving GIF", "Showing animation in window instead..."])

/-- A two-row dataset used to instantiate the frame-order theorem. -/
def demoRows : List CleanRow :=
  [⟨0, .str "cell", 0, 0, 1, 3, 1, 0⟩, ⟨1, .str "cell", 5, 0, 1, 3, 0, 1⟩]
/-- A one-row dataset used to instantiate the viewport theorem. -/
def vRow0 : CleanRow := ⟨0, .str "cell", 3, 4, 1, 3, 1, 0⟩
/-- A raw row whose diameter is the (negative) number −1 but whose fields all
coerce; it survives the cleaning of the video loader untouched. -/
def badDiamRow : RawRow :=
  ⟨.num 0, .str "cell", .num 1, .num 2, .num (-1), .num 3, .num 1, .num 0⟩
/-- A fully numeric, separator-free raw row. -/
def goodRow : RawRow :=
  ⟨.num 0, .str "cell", .num 1, .num 2, .num 1, .num 3, .num 1, .num 0⟩
/-- A raw row whose pos_X is a non-numeric string: the final-state loader
keeps it, the video loader drops it. -/
def strPosRow : RawRow :=
  ⟨.num 7, .str "cell", .str "abc", .num 0, .num 1, .num 1, .num 1, .num 0⟩

/-! Helper lemmas shared by the claim theorems. -/

lemma foldl_min_le_init (as : List ℚ) (a : ℚ) : as.foldl min a ≤ a := by
  induction as generalizing a with
  | nil => simp
  | cons b bs ih => exact le_trans (ih (min a b)) (min_le_left a b)

lemma foldl_min_le_mem (as : List ℚ) (a x : ℚ) (hx : x ∈ as) : as.foldl min a ≤ x := by
  induction as generalizing a with
  | nil => cases hx
  | cons b bs ih =>
    rcases List.mem_cons.mp hx with h | h
    · subst h
      exact le_trans (foldl_min_le_init bs (min a x)) (min_le_right a x)
    · exact ih (min a b) h

lemma listMin_le {l : List ℚ} {x : ℚ} (hx : x ∈ l) : listMin l ≤ x := by
  cases l with
  | nil => cases hx
  | cons a as =>
    rcases List.mem_cons.mp hx with h | h
    · subst h; exact foldl_min_le_init as x
    · exact foldl_min_le_mem as a x h

lemma init_le_foldl_max (as : List ℚ) (a : ℚ) : a ≤ as.foldl max a := by
  induction as generalizing a with
  | nil => simp
  | cons b bs ih => exact le_trans (le_max_left a b) (ih (max a b))

lemma mem_le_foldl_max (as : List ℚ) (a x : ℚ) (hx : x ∈ as) : x ≤ as.foldl max a := by
  induction as generalizing a with
  | nil => cases hx
  | cons b bs ih =>
    rcases List.mem_cons.mp hx with h | h
    · subst h
      exact le_trans (le_max_right a x) (init_le_foldl_max bs (max a x))
    · exact ih (max a b) h

lemma le_listMax {l : List ℚ} {x : ℚ} (hx : x ∈ l) : x ≤ listMax l := by
  cases l with
  | nil => cases hx
  | cons a as =>
    rcases List.mem_cons.mp hx with h | h
    · subst h; exact init_le_foldl_max as x
    · exact mem_le_foldl_max as a x h

lemma mem_insertTick {y x : Int} : ∀ {l : List Int},
    y ∈ insertTick x l ↔ y = x ∨ y ∈ l := by
  intro l
  induction l with
  | nil => simp [insertTick]
  | cons a as ih =>
    simp only [insertTick]
    by_cases h1 : x < a
    · rw [if_pos h1]
      simp only [List.mem_cons]
    · by_cases h2 : x = a
      · subst h2
        rw [if_neg h1, if_pos rfl]
        simp only [List.mem_cons]
        tauto
      · rw [if_neg h1, if_neg h2]
        simp only [List.mem_cons, ih]
        tauto

lemma insertTick_sorted {x : Int} : ∀ {l : List Int},
    List.Sorted (· < ·) l → List.Sorted (· < ·) (insertTick x l) := by
  intro l
  induction l with
  | nil => intro _; simp [insertTick]
  | cons a as ih =>
    intro h
    rw [List.sorted_cons] at h
    obtain ⟨ha, has⟩ := h
    simp only [insertTick]
    by_cases h1 : x < a
    · rw [if_pos h1, List.sorted_cons]
      refine ⟨?_, ?_⟩
      · intro b hb
        rcases List.mem_cons.mp hb with rfl | hb
        · exact h1
        · exact lt_trans h1 (ha b hb)
      · rw [List.sorted_cons]
        exact ⟨ha, has⟩
    · by_cases h2 : x = a
      · rw [if_neg h1, if_pos h2, List.sorted_cons]
        exact ⟨ha, has⟩
      · have hax : a < x := lt_of_le_of_ne (not_lt.mp h1) (Ne.symm h2)
        rw [if_neg h1, if_neg h2, List.sorted_cons]
        refine ⟨?_, ih has⟩
        intro b hb
        rcases mem_insertTick.mp hb with rfl | hb
        · exact hax
        · exact ha b hb

lemma time_steps_sorted (rows : List CleanRow) :
    List.Sorted (· < ·) (time_steps rows) := by
  induction rows with
  | nil => exact List.sorted_nil
  | cons r rs ih => exact insertTick_sorted ih

lemma getD_map_range (l : List Int) :
    (List.range l.length).map (fun n => l.getD n 0) = l := by
  apply List.ext_get
  · simp
  · intro n h1 h2
    simp [List.getD_eq_getElem, h2]

lemma transform_apply (c : CellRec) (p : ℝ × ℝ) :
    c.transform.apply p
      = (Real.cos c.angle * p.1 - Real.sin c.angle * p.2 + c.pos_X,
         Real.sin c.angle * p.1 + Real.cos c.angle * p.2 + c.pos_Y) := by
  have hdeg : degrees c.angle * Real.pi / 180 = c.angle := by
    unfold degrees
    field_simp
  simp only [CellRec.transform, Affine2.rotateDeg, Affine2.translate, Affine2.rotate,
    Affine2.comp, Affine2.id0, Affine2.apply, hdeg]
  ring_nf

/-- C5: for every ingested record collection, including one whose tick values
appear out of order or repeated, the tick sequence produced by the Tick Index
is strictly increasing and duplicate-free, and an empty record collection
yields an empty tick sequence rather than an error. -/
theorem tickIndex_strictMono_nodup_empty :
    (∀ rows : List CleanRow,
      List.Sorted (· < ·) (time_steps rows) ∧ (time_steps rows).Nodup)
    ∧ time_steps ([] : List CleanRow) = [] := by
  constructor
  · intro rows
    exact ⟨time_steps_sorted rows, (time_steps_sorted rows).nodup⟩
  · rfl

/-- C6: with zero valid rows after cleaning, the Tick Index yields an empty
sequence and the intended fallback viewport is (0,100)×(0,100), but the video
script crashes with an IndexError at the tick-range print before reaching the
fallback branch, which is unreachable for an empty tick sequence. -/
theorem emptyDataset_indexError :
    videoScriptMain ([] : List CleanRow) = ScriptResult.indexError
    ∧ time_steps ([] : List CleanRow) = []
    ∧ plotBounds ([] : List CleanRow) = ⟨0, 100, 0, 100⟩ :=
  ⟨rfl, rfl, rfl⟩

/-- C7: in video mode, for every frame index N below the number of distinct
ticks, frame N renders the tick at position N of the strictly increasing tick
sequence (the Nth-smallest tick), and the driver produces exactly one frame
per tick in ascending order with no reordering. -/
theorem videoFrames_in_tick_order (rows : List CleanRow) (n : Nat)
    (h : n < (time_steps rows).length) :
    animateTick rows n = (time_steps rows).get ⟨n, h⟩
    ∧ videoFrameTicks rows = time_steps rows
    ∧ List.Sorted (· < ·) (time_steps rows) := by
  refine ⟨?_, ?_, time_steps_sorted rows⟩
  · simp [animateTick, List.getD_eq_getElem, h]
  · unfold videoFrameTicks animateTick
    exact getD_map_range (time_steps rows)


/-- Witness for C7 at a concrete two-tick dataset and frame index 0. -/
theorem videoFrames_in_tick_order_witness :
    animateTick demoRows 0 = (time_steps demoRows).get ⟨0, by decide⟩
    ∧ videoFrameTicks demoRows = time_steps demoRows
    ∧ List.Sorted (· < ·) (time_steps demoRows) :=
  videoFrames_in_tick_order demoRows 0 (by decide)

/-- C9: if the ffmpeg encoder fails, the save block falls back to a GIF, and
if that also fails, to showing the animation in a window, logging each
fallback step; when ffmpeg succeeds an MP4 is produced. -/
theorem encoderFallbackChain :
    (∀ p : Bool, (saveAnimationFlow true p).1 = SaveOutcome.mp4)
    ∧ (saveAnimationFlow false true).1 = SaveOutcome.gif
    ∧ "Trying alternative method..." ∈ (saveAnimationFlow false true).2
    ∧ (saveAnimationFlow false false).1 = SaveOutcome.window
    ∧ "Trying alternative method..." ∈ (saveAnimationFlow false false).2
    ∧ "Showing animation in window instead..." ∈ (saveAnimationFlow false false).2 := by
  refine ⟨fun p => rfl, rfl, ?_, rfl, ?_, ?_⟩ <;> decide

/-- C2: for every Cell record the capsule is assembled as a rectangle of
width = diameter and length = (length − diameter), flanked by two discs of
radius diameter/2 centered at each short edge midpoint, so the end-to-end
length equals `length` and the width (vertical extent of both the rectangle
and the caps) equals `diameter`. -/
theorem capsule_assembly (c : CellRec) :
    (c.rect.w = c.length - c.diameter ∧ c.rect.h = c.diameter)
    ∧ (c.leftCap.r = c.diameter / 2 ∧ c.rightCap.r = c.diameter / 2)
    ∧ (c.leftCap.cx = c.rect.x0 ∧ c.leftCap.cy = c.rect.y0 + c.rect.h / 2)
    ∧ (c.rightCap.cx = c.rect.x0 + c.rect.w ∧ c.rightCap.cy = c.rect.y0 + c.rect.h / 2)
    ∧ (c.rightCap.cx + c.rightCap.r) - (c.leftCap.cx - c.leftCap.r) = c.length
    ∧ (c.rect.y0 + c.rect.h) - c.rect.y0 = c.diameter
    ∧ (c.leftCap.cy + c.leftCap.r) - (c.leftCap.cy - c.leftCap.r) = c.diameter := by
  refine ⟨⟨?_, ?_⟩, ⟨?_, ?_⟩, ⟨?_, ?_⟩, ⟨?_, ?_⟩, ?_, ?_, ?_⟩ <;>
    simp only [CellRec.rect, CellRec.leftCap, CellRec.rightCap, CellRec.capR,
      CellRec.rectLen] <;>
    ring

/-- C1: for every Cell record the applied transform is rotation by
angle = atan2(orientation_Y, orientation_X) followed by translation to the
position of the record (world point = R(angle)·p + position for every local point
p), and in the two-tick scenario the tick-0 capsule is centered at (0,0) with
body half-length 1 and angle 0 while the tick-1 capsule is centered at (5,0)
with angle π/2. -/
theorem capsule_rotate_then_translate :
    (∀ (c : CellRec) (p : ℝ × ℝ),
      c.transform.apply p
        = (Real.cos c.angle * p.1 - Real.sin c.angle * p.2 + c.pos_X,
           Real.sin c.angle * p.1 + Real.cos c.angle * p.2 + c.pos_Y))
    ∧ tick0Cell.worldCenter = (0, 0)
    ∧ tick0Cell.bodyHalfLen = 1
    ∧ tick0Cell.angle = 0
    ∧ tick1Cell.worldCenter = (5, 0)
    ∧ tick1Cell.angle = Real.pi / 2 := by
  refine ⟨transform_apply, ?_, ?_, ?_, ?_, ?_⟩
  · rw [CellRec.worldCenter, transform_apply]
    simp [tick0Cell]
  · norm_num [CellRec.bodyHalfLen, CellRec.rectLen, tick0Cell]
  · simp [CellRec.angle, atan2, tick0Cell]
  · rw [CellRec.worldCenter, transform_apply]
    simp [tick1Cell]
  · simp [CellRec.angle, atan2, tick1Cell, Complex.arg_I]

/-- C8: a Cell record with length = diameter yields a degenerate capsule:
body half-length 0, both end caps coincide with the capsule center, the
center sits at the position of the record, and the cap radius is diameter/2. -/
theorem degenerate_capsule (c : CellRec) (h : c.length = c.diameter) :
    c.bodyHalfLen = 0
    ∧ c.worldLeftCap = c.worldCenter
    ∧ c.worldRightCap = c.worldCenter
    ∧ c.worldCenter = (c.pos_X, c.pos_Y)
    ∧ c.capR = c.diameter / 2 := by
  have hr : c.rectLen = 0 := by
    rw [CellRec.rectLen, h]
    ring
  refine ⟨?_, ?_, ?_, ?_, rfl⟩
  · rw [CellRec.bodyHalfLen, hr]
    norm_num
  · rw [CellRec.worldLeftCap, CellRec.worldCenter, transform_apply, transform_apply]
    simp [CellRec.leftCap, hr]
  · rw [CellRec.worldRightCap, CellRec.worldCenter, transform_apply, transform_apply]
    simp [CellRec.rightCap, hr]
  · rw [CellRec.worldCenter, transform_apply]
    simp


/-- Witness for C8 at a concrete degenerate cell. -/
theorem degenerate_capsule_witness :
    c8cell.bodyHalfLen = 0
    ∧ c8cell.worldLeftCap = c8cell.worldCenter
    ∧ c8cell.worldRightCap = c8cell.worldCenter
    ∧ c8cell.worldCenter = (c8cell.pos_X, c8cell.pos_Y)
    ∧ c8cell.capR = c8cell.diameter / 2 :=
  degenerate_capsule c8cell rfl

/-- C3: for a non-empty reference (last) tick, the viewport is
[min−p, max+p] in each axis with p = 2·max(diameter, length) over that
records of that tick, and therefore every agent position of that tick lies inside
the viewport with margin at least p on all four sides. -/
theorem viewport_contains_reference_tick (rows : List CleanRow) (last : Int)
    (hlast : (time_steps rows).getLast? = some last)
    (r : CleanRow) (hr : r ∈ lastTickData rows last) :
    (plotBounds rows).min_x
        = listMin ((lastTickData rows last).map (·.pos_X)) - viewPadding (lastTickData rows last)
    ∧ (plotBounds rows).max_x
        = listMax ((lastTickData rows last).map (·.pos_X)) + viewPadding (lastTickData rows last)
    ∧ (plotBounds rows).min_y
        = listMin ((lastTickData rows last).map (·.pos_Y)) - viewPadding (lastTickData rows last)
    ∧ (plotBounds rows).max_y
        = listMax ((lastTickData rows last).map (·.pos_Y)) + viewPadding (lastTickData rows last)
    ∧ viewPadding (lastTickData rows last)
        = 2 * max (listMax ((lastTickData rows last).map (·.diameter)))
            (listMax ((lastTickData rows last).map (·.length)))
    ∧ viewPadding (lastTickData rows last) ≤ r.pos_X - (plotBounds rows).min_x
    ∧ viewPadding (lastTickData rows last) ≤ (plotBounds rows).max_x - r.pos_X
    ∧ viewPadding (lastTickData rows last) ≤ r.pos_Y - (plotBounds rows).min_y
    ∧ viewPadding (lastTickData rows last) ≤ (plotBounds rows).max_y - r.pos_Y := by
  have hne : (lastTickData rows last).isEmpty = false := by
    cases hl : lastTickData rows last with
    | nil => rw [hl] at hr; cases hr
    | cons a as => rfl
  have hB : plotBounds rows
      = ⟨listMin ((lastTickData rows last).map (·.pos_X)) - viewPadding (lastTickData rows last),
         listMax ((lastTickData rows last).map (·.pos_X)) + viewPadding (lastTickData rows last),
         listMin ((lastTickData rows last).map (·.pos_Y)) - viewPadding (lastTickData rows last),
         listMax ((lastTickData rows last).map (·.pos_Y)) + viewPadding (lastTickData rows last)⟩ := by
    unfold plotBounds
    rw [hlast]
    simp [hne]
  have hx : r.pos_X ∈ (lastTickData rows last).map (·.pos_X) := List.mem_map_of_mem _ hr
  have hy : r.pos_Y ∈ (lastTickData rows last).map (·.pos_Y) := List.mem_map_of_mem _ hr
  have hx1 := listMin_le hx
  have hx2 := le_listMax hx
  have hy1 := listMin_le hy
  have hy2 := le_listMax hy
  rw [hB]
  refine ⟨rfl, rfl, rfl, rfl, by rw [viewPadding]; ring, ?_, ?_, ?_, ?_⟩ <;>
    simp only [Bounds.min_x, Bounds.max_x, Bounds.min_y, Bounds.max_y] <;>
    linarith


/-- Witness for C3 at a concrete one-row dataset. -/
theorem viewport_contains_reference_tick_witness :
    (plotBounds [vRow0]).min_x
        = listMin ((lastTickData [vRow0] 0).map (·.pos_X)) - viewPadding (lastTickData [vRow0] 0)
    ∧ (plotBounds [vRow0]).max_x
        = listMax ((lastTickData [vRow0] 0).map (·.pos_X)) + viewPadding (lastTickData [vRow0] 0)
    ∧ (plotBounds [vRow0]).min_y
        = listMin ((lastTickData [vRow0] 0).map (·.pos_Y)) - viewPadding (lastTickData [vRow0] 0)
    ∧ (plotBounds [vRow0]).max_y
        = listMax ((lastTickData [vRow0] 0).map (·.pos_Y)) + viewPadding (lastTickData [vRow0] 0)
    ∧ viewPadding (lastTickData [vRow0] 0)
        = 2 * max (listMax ((lastTickData [vRow0] 0).map (·.diameter)))
            (listMax ((lastTickData [vRow0] 0).map (·.length)))
    ∧ viewPadding (lastTickData [vRow0] 0) ≤ vRow0.pos_X - (plotBounds [vRow0]).min_x
    ∧ viewPadding (lastTickData [vRow0] 0) ≤ (plotBounds [vRow0]).max_x - vRow0.pos_X
    ∧ viewPadding (lastTickData [vRow0] 0) ≤ vRow0.pos_Y - (plotBounds [vRow0]).min_y
    ∧ viewPadding (lastTickData [vRow0] 0) ≤ (plotBounds [vRow0]).max_y - vRow0.pos_Y :=
  viewport_contains_reference_tick [vRow0] 0 (by decide) vRow0 (by decide)


/-- Counterexample to C4: ingestion keeps a record with diameter −1, so not
every surviving record satisfies diameter > 0. -/
theorem cleanVideo_keeps_nonpositive_diameter :
    cleanVideo [badDiamRow] = [⟨0, .str "cell", 1, 2, -1, 3, 1, 0⟩]
    ∧ ¬ (∀ c ∈ cleanVideo [badDiamRow], 0 < c.diameter) := by
  refine ⟨by decide, ?_⟩
  intro hall
  have h := hall ⟨0, .str "cell", 1, 2, -1, 3, 1, 0⟩ (by decide)
  exact absurd h (by decide)

/-- C4 (amended): every record surviving the cleaning of the video loader has
`tick_num` and all six required numeric fields successfully coerced. -/
theorem surviveVideo_numeric_coercion (rows : List RawRow) (r : RawRow)
    (h : r ∈ surviveVideo rows) :
    r.numericOk = true ∧ r.tick_num.toNumeric.isSome = true := by
  unfold surviveVideo numericPass tickPass at h
  obtain ⟨h1, hnum⟩ := List.mem_filter.mp h
  obtain ⟨h2, htick⟩ := List.mem_filter.mp h1
  exact ⟨hnum, htick⟩


/-- Witness for the amended C4 at a concrete surviving row. -/
theorem surviveVideo_numeric_coercion_witness :
    goodRow.numericOk = true ∧ goodRow.tick_num.toNumeric.isSome = true :=
  surviveVideo_numeric_coercion [goodRow] goodRow (by decide)


/-- Counterexample to C10: the two loaders do not produce the same cleaned
record collection — a row whose pos_X fails numeric coercion is kept by the
final-state loader but dropped by the video loader. -/
theorem loaders_differ_on_noncoercible_row :
    surviveApp [strPosRow] = [strPosRow]
    ∧ surviveVideo [strPosRow] = []
    ∧ surviveVideo [strPosRow] ≠ surviveApp [strPosRow] := by
  decide

/-- C10 (amended): the survivors of the video loader are always a sublist of the
survivors of the final-state loader, and the two loaders agree on every input in
which the six numeric fields of every row coerce. -/
theorem loaders_agree_on_numeric_rows (rows : List RawRow)
    (h : ∀ r ∈ rows, r.numericOk = true) :
    List.Sublist (surviveVideo rows) (surviveApp rows)
    ∧ surviveVideo rows = surviveApp rows := by
  have hsub : ∀ r ∈ surviveApp rows, r ∈ rows := by
    intro r hr
    unfold surviveApp tickPass hashPass dropnaPass at hr
    exact (List.filter_sublist _).subset
      ((List.filter_sublist _).subset ((List.filter_sublist _).subset hr))
  constructor
  · exact List.filter_sublist _
  · unfold surviveVideo numericPass
    apply List.filter_eq_self.mpr
    intro r hr
    exact h r (hsub r hr)

/-- Witness for the amended C10 at a concrete fully-numeric dataset. -/
theorem loaders_agree_on_numeric_rows_witness :
    List.Sublist (surviveVideo [goodRow]) (surviveApp [goodRow])
    ∧ surviveVideo [goodRow] = surviveApp [goodRow] :=
  loaders_agree_on_numeric_rows [goodRow] (by decide)

end Biofilm
